/-
Verification of the stock-scanner pipeline (Web_App.py) against its
specification.

Shallow embedding conventions:
* A Python float that may be NaN is modelled as `PF := Option ℚ`, with
  `none` standing for NaN (and for Python `None` where the code only ever
  asks `pd.isna` / comparisons, which treat both alike).
* A field of the provider's `info` dict is `Option PF`: the outer `none`
  means the key is absent, mirroring `info.get(key, default)`.
* Arithmetic on `PF` propagates `none`, as IEEE NaN does; comparisons
  against `none` are `false`, as NaN comparisons are in Python/numpy.
* Fallible remote fetches are passed in as `Except String` values: an
  `.error` input stands for the fetch raising, which the code catches.
-/
import Mathlib

set_option maxHeartbeats 1000000

/-- A Python float value: `none` is NaN. -/
abbrev PF := Option ℚ

/-- NaN-propagating subtraction (`x - y` on floats). -/
def subPF (x y : PF) : PF :=
  match x, y with
  | some a, some b => some (a - b)
  | _, _ => none

/-- NaN-propagating absolute value (`abs(x)` on floats). -/
def absPF (x : PF) : PF := x.map (fun a => |a|)

/-- Python `np.maximum` on scalars: NaN-propagating maximum. -/
def maxPF (x y : PF) : PF :=
  match x, y with
  | some a, some b => some (max a b)
  | _, _ => none

/-- NaN-propagating addition. -/
def addPF (x y : PF) : PF :=
  match x, y with
  | some a, some b => some (a + b)
  | _, _ => none

/-- Multiplication of a float by a literal constant (`c * x`). -/
def mulPF (c : ℚ) (x : PF) : PF := x.map (fun a => c * a)

/-- Division of a float by a nonzero literal constant (`x / c`). -/
def divPF (x : PF) (c : ℚ) : PF := x.map (fun a => a / c)

/-- Python comparison `x > c`: false when `x` is NaN. -/
def gtPF (x : PF) (c : ℚ) : Bool :=
  match x with
  | some a => decide (c < a)
  | none => false

/-- Python comparison `x < c`: false when `x` is NaN. -/
def ltPF (x : PF) (c : ℚ) : Bool :=
  match x with
  | some a => decide (a < c)
  | none => false

/-- Python chained comparison `lo < x < hi`: false when `x` is NaN
(this is also `pd.notnull(x) and lo < x < hi`, since a non-NaN value
makes the `notnull` conjunct redundant). -/
def betweenPF (lo : ℚ) (x : PF) (hi : ℚ) : Bool :=
  match x with
  | some a => decide (lo < a) && decide (a < hi)
  | none => false

/-- Python truthiness of a float: `0.0` is falsy, every other value —
NaN included — is truthy. -/
def pyTruthy (x : PF) : Bool := x ≠ some 0

/-- Round a rational to the nearest integer, ties to even — the tie rule
of Python 3's built-in `round`. -/
def pyRoundInt (q : ℚ) : ℤ :=
  if q - q.floor = 1 / 2 then
    if q.floor % 2 = 0 then q.floor else q.floor + 1
  else (q + 1 / 2).floor

/-- Python `round(x, 2)`. -/
def round2 (q : ℚ) : ℚ := (pyRoundInt (q * 100) : ℚ) / 100

/-- Python `round(x, 1)`. -/
def round1 (q : ℚ) : ℚ := (pyRoundInt (q * 10) : ℚ) / 10

/-- Python `round(x, 2)` on a possibly-NaN float: `round(nan, 2)` is NaN. -/
def round2PF (x : PF) : PF := x.map round2

/-- Python `round(x, 1)` on a possibly-NaN float. -/
def round1PF (x : PF) : PF := x.map round1

/-! ## The provider `info` dict (FundamentalSnapshot) -/

/-- The provider snapshot as consumed by `analyze_single_stock`: the five
keys the code reads from `stock.info`.  An outer `none` models an absent
key; `empty` models `not info` (a completely empty dict, as Yahoo returns
when blocked). -/
structure Info where
  empty : Bool
  currentPrice : Option PF
  returnOnEquity : Option PF
  debtToEquity : Option PF
  pegRatio : Option PF
  trailingPE : Option PF
deriving DecidableEq

/-- Python `info.get('currentPrice', 0)`. -/
def Info.price (i : Info) : PF := i.currentPrice.getD (some 0)

/-- Python `info.get('returnOnEquity', 0)`. -/
def Info.roe (i : Info) : PF := i.returnOnEquity.getD (some 0)

/-- Python `info.get('debtToEquity', 0)`. -/
def Info.debtEq (i : Info) : PF := i.debtToEquity.getD (some 0)

/-- Python `info.get('pegRatio', float('nan'))`. -/
def Info.peg (i : Info) : PF := i.pegRatio.getD none

/-- Python `info.get('trailingPE', float('nan'))`. -/
def Info.pe (i : Info) : PF := i.trailingPE.getD none

/-- Python `roe_pct = roe * 100 if roe else 0`. -/
def roePct (i : Info) : PF :=
  if pyTruthy i.roe then mulPF 100 i.roe else some 0

/-- Python `debt_ratio = debt_eq / 100 if debt_eq > 10 else debt_eq`. -/
def debtRatio (i : Info) : PF :=
  if gtPF i.debtEq 10 then divPF i.debtEq 100 else i.debtEq

/-- Rule 1 (quality): `roe_pct > 12`. -/
def rule1 (i : Info) : Bool := gtPF (roePct i) 12

/-- Rule 2 (safety): `debt_ratio < 1.5`. -/
def rule2 (i : Info) : Bool := ltPF (debtRatio i) (3 / 2)

/-- Rule 3 (growth): `pd.isna(peg) or (0 < peg < 3.0)`. -/
def rule3 (i : Info) : Bool := i.peg.isNone || betweenPF 0 i.peg 3

/-- Rule 4 (value): `pd.notnull(pe) and 0 < pe < 40`. -/
def rule4 (i : Info) : Bool := betweenPF 0 i.pe 40

/-- The scoring block of `analyze_single_stock`: starts at 0 and runs the
four `if rule: score += 1` statements in order. -/
def scoreOf (i : Info) : ℕ :=
  let score := 0
  let score := if rule1 i then score + 1 else score
  let score := if rule2 i then score + 1 else score
  let score := if rule3 i then score + 1 else score
  if rule4 i then score + 1 else score

/-- The verdict chain: `"Avoid"` overwritten by the `if score == 4 /
elif score == 3 / elif score == 2` ladder. -/
def verdictOf (score : ℕ) : String :=
  if score = 4 then "STRONG BUY"
  else if score = 3 then "Quality Buy"
  else if score = 2 then "Watchlist"
  else "Avoid"

/-! Spec-side restatements of the four rules, for the refinement check of
claim C1.  These follow the claim's words, not the code: R1 is "ROE,
expressed as a percentage (raw value times 100), exceeds 12" — with no
truthiness branch. -/

/-- Spec wording of R1: raw ROE times 100 exceeds 12. -/
def specR1 (i : Info) : Bool := gtPF (mulPF 100 i.roe) 12

/-- Spec wording of R2: debt-to-equity, divided by 100 when the raw value
exceeds 10 and unchanged otherwise, is below 1.5. -/
def specR2 (i : Info) : Bool :=
  ltPF (if gtPF i.debtEq 10 then divPF i.debtEq 100 else i.debtEq) (3 / 2)

/-- Spec wording of R3: PEG absent/NaN, or strictly between 0 and 3.0. -/
def specR3 (i : Info) : Bool := i.peg.isNone || betweenPF 0 i.peg 3

/-- Spec wording of R4: P/E present and strictly between 0 and 40. -/
def specR4 (i : Info) : Bool := betweenPF 0 i.pe 40

/-- Bool to count contribution. -/
def b2n (b : Bool) : ℕ := if b then 1 else 0

/-! ## Strings: `.NS` suffixing, `str.replace('.NS','')`, `"DUMMY" in s.upper()` -/

/-- The characters of the fixed exchange suffix `".NS"`. -/
def nsChars : List Char := ['.', 'N', 'S']

/-- The characters of the placeholder marker `"DUMMY"`. -/
def dummyChars : List Char := ['D', 'U', 'M', 'M', 'Y']

/-- Python `pat in s` on character lists: scan left to right for an
occurrence of `pat`. -/
def hasSub (pat : List Char) : List Char → Bool
  | [] => pat.isEmpty
  | c :: rest => pat.isPrefixOf (c :: rest) || hasSub pat rest

/-- Python `s.upper()` character by character. -/
def upperChars (s : List Char) : List Char := s.map Char.toUpper

/-- Python `"DUMMY" in str(sym).upper()`. -/
def hasDummy (sym : String) : Bool := hasSub dummyChars (upperChars sym.data)

/-- Python `s.replace('.NS', '')`: scan left to right; on a match skip the
three pattern characters and continue after them, otherwise keep the
character and advance one. -/
def replNS : List Char → List Char
  | [] => []
  | [c] => [c]
  | [c, d] => [c, d]
  | c :: d :: e :: rest =>
    if c = '.' ∧ d = 'N' ∧ e = 'S' then replNS rest
    else c :: replNS (d :: e :: rest)

/-- Python `symbol.replace('.NS', '')` on strings. -/
def stripNS (s : String) : String := String.mk (replNS s.data)

/-! ## Sector List Fetcher (`get_all_nifty_stocks`)

The loop body's remote retrieval and CSV parsing are external; the input
to the embedded function is, per sector, either `none` (the `except`
branch fired, or no column containing "Symbol" was found — the sector
contributes nothing) or `some syms`, the stringified values of the symbol
column.  The Python `set` with its final `list(...)` conversion is
modelled as first-insertion order with membership-checked insertion,
which determines the same membership and multiplicity. -/

/-- Python `all_tickers.add(t)` on the list model of the set. -/
def addTicker (acc : List String) (t : String) : List String :=
  if t ∈ acc then acc else acc ++ [t]

/-- The per-sector body: `for sym in symbols: if "DUMMY" not in
str(sym).upper(): all_tickers.add(f"{sym}.NS")`. -/
def addSector (acc : List String) (syms : List String) : List String :=
  syms.foldl (fun a sym => if hasDummy sym then a else addTicker a (sym ++ ".NS")) acc

/-- The function `get_all_nifty_stocks`, over the per-sector fetch outcomes. -/
def get_all_nifty_stocks (sectorData : List (Option (List String))) : List String :=
  sectorData.foldl
    (fun acc osyms =>
      match osyms with
      | none => acc
      | some syms => addSector acc syms)
    []

/-! ## Technical Level Calculator (the ATR block of `analyze_single_stock`) -/

/-- One OHLC row of the history dataframe; any field may be NaN. -/
structure Bar where
  high : PF
  low : PF
  close : PF
deriving DecidableEq

/-- One row of the `tr` column:
`np.maximum(high - low, np.maximum(abs(high - prev_close), abs(low - prev_close)))`,
where `prev_close` is `Close.shift(1)` — NaN on the first row. -/
def trRow (prevClose : PF) (b : Bar) : PF :=
  maxPF (subPF b.high b.low)
    (maxPF (absPF (subPF b.high prevClose)) (absPF (subPF b.low prevClose)))

/-- The `tr` column from a given previous close onward. -/
def trFrom (prevClose : PF) : List Bar → List PF
  | [] => []
  | b :: rest => trRow prevClose b :: trFrom b.close rest

/-- The whole `tr` column: the first row sees a NaN previous close. -/
def trSeries (bars : List Bar) : List PF := trFrom none bars

/-- Python `df.tail(n)`: the last `n` entries. -/
def lastN {α : Type} (n : ℕ) (l : List α) : List α := l.drop (l.length - n)

/-- pandas `Series.mean()`: NaN entries are skipped; the mean of no
values is NaN. -/
def pmean (l : List PF) : PF :=
  let vals := l.filterMap id
  if vals.length = 0 then none else some (vals.sum / vals.length)

/-- Python `atr = hist['tr'].tail(14).mean()`. -/
def atr (bars : List Bar) : PF := pmean (lastN 14 (trSeries bars))

/-- The guarded ATR block: under `not hist.empty and len(hist) > 14` it
sets `sl = round(price - 2.0*atr, 2)` and `tgt = round(price + 4.0*atr, 2)`;
otherwise both stay `"N/A"` (here: `none`). -/
def compute_levels (bars : List Bar) (price : PF) : Option (PF × PF) :=
  if 14 < bars.length then
    some (round2PF (subPF price (mulPF 2 (atr bars))),
          round2PF (addPF price (mulPF 4 (atr bars))))
  else none

/-! ## Ticker Analyzer (`analyze_single_stock`) -/

/-- The fields of a success record, besides the ticker.  `slLevel` and
`tgtLevel` are `none` for the string `"N/A"`, `some none` for a NaN
number; `pegDisplay` and `peDisplay` are `none` for `"N/A"`. -/
structure ResultFields where
  price : PF
  scoreText : String
  verdict : String
  slLevel : Option PF
  tgtLevel : Option PF
  pegDisplay : Option ℚ
  roeDisplay : PF
  peDisplay : Option ℚ
  rawScore : ℕ
deriving DecidableEq

/-- The returned dict: `ticker` is always present; an error record also
carries `err`; a success record carries `res`.  (That the code never
populates both or neither is claim C4, proved below — the structure
itself allows all four combinations.) -/
structure AnalysisRecord where
  ticker : String
  err : Option String
  res : Option ResultFields
deriving DecidableEq

/-- The function `analyze_single_stock`.  `fetchInfo` is the outcome of `stock.info`
(`.error e` = the fetch raised `e`, caught by the outer `except`);
`fetchHist` is the outcome of `stock.history(period="1mo")` (`.error` =
raised, caught by the inner `except`, leaving `sl`/`tgt` at `"N/A"`). -/
def analyze_single_stock (symbol : String) (fetchInfo : Except String Info)
    (fetchHist : Except String (List Bar)) : AnalysisRecord :=
  match fetchInfo with
  | .error e => { ticker := symbol, err := some (toString e), res := none }
  | .ok info =>
    if info.empty || info.currentPrice.isNone then
      { ticker := symbol, err := some "No Data/Blocked", res := none }
    else
      let price := info.price
      let score := scoreOf info
      let verdict := verdictOf score
      let levels : Option PF × Option PF :=
        if 2 ≤ score then
          match fetchHist with
          | .error _ => (none, none)
          | .ok hist =>
            match compute_levels hist price with
            | some (sl, tgt) => (some sl, some tgt)
            | none => (none, none)
        else (none, none)
      { ticker := stripNS symbol,
        err := none,
        res := some
          { price := price,
            scoreText := toString score ++ "/4",
            verdict := verdict,
            slLevel := levels.1,
            tgtLevel := levels.2,
            pegDisplay := (info.peg).map round2,
            roeDisplay := round1PF (roePct info),
            peDisplay := (info.pe).map round1,
            rawScore := score } }

/-! ## Scan Orchestrator (the module-level scan handler) -/

/-- Python `res["Raw_Score"]` of a record; 0 for a record without result fields
(the handler only reads it on non-error records, which always carry
result fields). -/
def recScore (r : AnalysisRecord) : ℕ := (r.res.map (fun f => f.rawScore)).getD 0

/-- The `"ROE %"` column of a record. -/
def recRoe (r : AnalysisRecord) : PF := (r.res.map (fun f => f.roeDisplay)).getD none

/-- One step of the aggregation loop over completed records:
`if "Error" in res: errors.append(res) elif res["Raw_Score"] >= 2:
results.append(res)` — lower-scoring non-error records land nowhere. -/
def scanStep (acc : List AnalysisRecord × List AnalysisRecord)
    (r : AnalysisRecord) : List AnalysisRecord × List AnalysisRecord :=
  if r.err.isSome then (acc.1 ++ [r], acc.2)
  else if 2 ≤ recScore r then (acc.1, acc.2 ++ [r])
  else acc

/-- The whole aggregation loop: errors and (score ≥ 2) results. -/
def scanPartition (recs : List AnalysisRecord) : List AnalysisRecord × List AnalysisRecord :=
  recs.foldl scanStep ([], [])

/-- Descending-`ROE %` comparison with NaN sorted last, as
`sort_values(ascending=False)` places NaN at the end. -/
def roeDescLE (x y : PF) : Bool :=
  match x, y with
  | some a, some b => decide (b ≤ a)
  | some _, none => true
  | none, some _ => false
  | none, none => true

/-- The sort key of `df.sort_values(by=["Raw_Score", "ROE %"],
ascending=[False, False])`: score descending, then `ROE %` descending. -/
def rankLE (a b : AnalysisRecord) : Bool :=
  if recScore b < recScore a then true
  else if recScore a < recScore b then false
  else roeDescLE (recRoe a) (recRoe b)

/-- The sorted results dataframe. -/
def sortedResults (recs : List AnalysisRecord) : List AnalysisRecord :=
  ((scanPartition recs).2).mergeSort rankLE

/-- Python `df[df["Raw_Score"] >= 3]` — the "Top Picks" table. -/
def topPicks (recs : List AnalysisRecord) : List AnalysisRecord :=
  (sortedResults recs).filter (fun r => 3 ≤ recScore r)

/-- Python `df[df["Raw_Score"] == 2]` — the "Watchlist" table. -/
def watchlist (recs : List AnalysisRecord) : List AnalysisRecord :=
  (sortedResults recs).filter (fun r => recScore r = 2)

/-! ## User-visible scan messages -/

/-- Python `st.write(f"Found **{len(tickers)}** unique stocks. Scanning with
{workers} workers...")`. -/
def foundMsg (n workers : ℕ) : String :=
  "Found **" ++ toString n ++ "** unique stocks. Scanning with " ++
    toString workers ++ " workers..."

/-- The `st.warning` text of the empty-results branch. -/
def noMatchMsg : String :=
  "No stocks matched the criteria. (Or Yahoo blocked the requests)."

/-- Python `st.success(f"Found {len(df)} opportunities!")`. -/
def successMsg (n : ℕ) : String := "Found " ++ toString n ++ " opportunities!"

/-- The headline messages of one scan, in display order: the ticker-count
line, then either the success line (when the filtered results dataframe
is nonempty) or the single no-match warning. -/
def scanMessages (tickers : List String) (recs : List AnalysisRecord)
    (workers : ℕ) : List String :=
  let results := (scanPartition recs).2
  if results.isEmpty then
    [foundMsg tickers.length workers, noMatchMsg]
  else
    [foundMsg tickers.length workers, successMsg results.length]

/-- The empty-state message a scan displays, if any: the warning shown
exactly when the results list is empty. -/
def emptyStateMsg (recs : List AnalysisRecord) : Option String :=
  if ((scanPartition recs).2).isEmpty then some noMatchMsg else none

/-! ## Claim C1: the tolerant score counts the four spec rules -/

/-- The code's Rule 1 (with its Python-truthiness branch on `roe`)
decides the same predicate as the spec's "raw ROE times 100 exceeds
12". -/
theorem rule1_eq_specR1 (i : Info) : rule1 i = specR1 i := by
  unfold rule1 specR1 roePct pyTruthy
  rcases hr : i.roe with _ | q
  · simp [mulPF, gtPF]
  · by_cases hq : q = 0
    · subst hq; simp [mulPF, gtPF]
    · simp [hq, mulPF, gtPF]

/-- C1.  For every snapshot, the tolerant score equals the number of
satisfied rules among the spec's R1–R4, and therefore lies in [0, 4].
(The scorer is a total function of the typed snapshot: absent or NaN
inputs flow through the `Option` model and never produce an error.) -/
theorem score_counts_spec_rules (i : Info) :
    scoreOf i = b2n (specR1 i) + b2n (specR2 i) + b2n (specR3 i) + b2n (specR4 i) ∧
    scoreOf i ≤ 4 := by
  have h1 : rule1 i = specR1 i := rule1_eq_specR1 i
  have h2 : rule2 i = specR2 i := rfl
  have h3 : rule3 i = specR3 i := rfl
  have h4 : rule4 i = specR4 i := rfl
  constructor
  · simp only [scoreOf, h1, h2, h3, h4, b2n]
    cases specR1 i <;> cases specR2 i <;> cases specR3 i <;> cases specR4 i <;> simp
  · simp only [scoreOf]
    split_ifs <;> omega

/-! ## Claim C6: the verdict mapping -/

/-- C6.  The verdict is a pure function of the integer score alone:
4 ↦ "STRONG BUY", 3 ↦ "Quality Buy", 2 ↦ "Watchlist", and every other
score ↦ "Avoid"; no other verdict band exists, and every snapshot's
score stays within the mapped range [0, 4]. -/
theorem verdict_pure_mapping :
    verdictOf 4 = "STRONG BUY" ∧ verdictOf 3 = "Quality Buy" ∧
    verdictOf 2 = "Watchlist" ∧
    (∀ n : ℕ, n ≠ 4 → n ≠ 3 → n ≠ 2 → verdictOf n = "Avoid") ∧
    (∀ n : ℕ, verdictOf n = "STRONG BUY" ∨ verdictOf n = "Quality Buy" ∨
      verdictOf n = "Watchlist" ∨ verdictOf n = "Avoid") ∧
    (∀ i : Info, scoreOf i ≤ 4) := by
  refine ⟨rfl, rfl, rfl, ?_, ?_, ?_⟩
  · intro n h4 h3 h2
    simp [verdictOf, h4, h3, h2]
  · intro n
    unfold verdictOf
    split_ifs <;> simp
  · intro i
    simp only [scoreOf]
    split_ifs <;> omega

/-- Witness for C6: scores 0 and 1 indeed map to "Avoid". -/
theorem verdict_pure_mapping_witness :
    verdictOf 0 = "Avoid" ∧ verdictOf 1 = "Avoid" :=
  ⟨verdict_pure_mapping.2.2.2.1 0 (by decide) (by decide) (by decide),
   verdict_pure_mapping.2.2.2.1 1 (by decide) (by decide) (by decide)⟩

/-! ## Claim C4: exactly one of error / result is populated -/

/-- C4.  For every ticker and every outcome of the two remote fetches,
the record returned by `analyze_single_stock` populates exactly one of
the error field and the result fields — never both, never neither. -/
theorem record_exactly_one_of_error_result (symbol : String)
    (fi : Except String Info) (fh : Except String (List Bar)) :
    ((analyze_single_stock symbol fi fh).err.isSome ∧
      (analyze_single_stock symbol fi fh).res = none) ∨
    ((analyze_single_stock symbol fi fh).err = none ∧
      (analyze_single_stock symbol fi fh).res.isSome) := by
  cases fi with
  | error e => left; simp [analyze_single_stock]
  | ok info =>
    by_cases h : (info.empty || info.currentPrice.isNone) = true
    · left; simp [analyze_single_stock, h]
    · right; simp [analyze_single_stock, h]

/-! ## Claim C5: immediate error records; no exception escapes -/

/-- C5.  The analyzer returns an error record carrying the ticker and a
failure description (a) immediately when the snapshot is empty or lacks a
current price — with no result fields, hence no score — and (b) whenever
the snapshot fetch faults, the fault being caught at the top level and
converted into an error record.  (That nothing propagates is the totality
of `analyze_single_stock` itself: every input yields a record.) -/
theorem analyzer_error_records (symbol : String) (i : Info) (e : String)
    (fh : Except String (List Bar)) :
    analyze_single_stock symbol (.error e) fh =
      { ticker := symbol, err := some e, res := none } ∧
    ((i.empty = true ∨ i.currentPrice = none) →
      analyze_single_stock symbol (.ok i) fh =
        { ticker := symbol, err := some "No Data/Blocked", res := none }) := by
  constructor
  · rfl
  · intro h
    have hc : (i.empty || i.currentPrice.isNone) = true := by
      rcases h with h | h
      · simp [h]
      · simp [h]
    simp [analyze_single_stock, hc]

/-- Witness for C5 at a concrete blocked snapshot. -/
theorem analyzer_error_records_witness :
    analyze_single_stock "RELIANCE.NS"
        (.ok { empty := true, currentPrice := none, returnOnEquity := none,
               debtToEquity := none, pegRatio := none, trailingPE := none })
        (.ok []) =
      { ticker := "RELIANCE.NS", err := some "No Data/Blocked", res := none } :=
  (analyzer_error_records "RELIANCE.NS"
      { empty := true, currentPrice := none, returnOnEquity := none,
        debtToEquity := none, pegRatio := none, trailingPE := none }
      "unused" (.ok [])).2 (Or.inl rfl)

/-! ## String lemmas for the `.NS` suffix and the DUMMY filter -/

/-- Appending `".NS"` cannot create a `"DUMMY"` prefix: the five-character
pattern would need `'.'`, `'N'` or `'S'` where it has none at the
positions the suffix can reach. -/
theorem prefix_dummy_append (ys : List Char) :
    dummyChars.isPrefixOf (ys ++ nsChars) = dummyChars.isPrefixOf ys := by
  match ys with
  | [] => decide
  | [a] => simp [dummyChars, nsChars, List.isPrefixOf]
  | [a, b] => simp [dummyChars, nsChars, List.isPrefixOf]
  | [a, b, c] => simp [dummyChars, nsChars, List.isPrefixOf]
  | [a, b, c, d] => simp [dummyChars, nsChars, List.isPrefixOf]
  | a :: b :: c :: d :: e :: t => simp [dummyChars, nsChars, List.isPrefixOf]

/-- Appending `".NS"` cannot create a `"DUMMY"` occurrence anywhere. -/
theorem hasSub_dummy_append (ys : List Char) :
    hasSub dummyChars (ys ++ nsChars) = hasSub dummyChars ys := by
  induction ys with
  | nil => decide
  | cons c t ih =>
    show hasSub dummyChars ((c :: t) ++ nsChars) = hasSub dummyChars (c :: t)
    have h1 : (c :: t) ++ nsChars = c :: (t ++ nsChars) := rfl
    rw [h1]
    show (dummyChars.isPrefixOf (c :: (t ++ nsChars)) || hasSub dummyChars (t ++ nsChars)) =
      (dummyChars.isPrefixOf (c :: t) || hasSub dummyChars t)
    rw [ih, show c :: (t ++ nsChars) = (c :: t) ++ nsChars from rfl,
      prefix_dummy_append]

/-- The DUMMY test on a suffixed ticker equals the test on the raw
symbol, since `'.'.toUpper`, `'N'.toUpper`, `'S'.toUpper` are fixed
points and the suffix cannot complete a `"DUMMY"` occurrence. -/
theorem hasDummy_append_ns (sym : String) :
    hasDummy (sym ++ ".NS") = hasDummy sym := by
  unfold hasDummy upperChars
  rw [String.data_append]
  have hns : (String.data ".NS") = nsChars := rfl
  rw [hns, List.map_append]
  have hup : nsChars.map Char.toUpper = nsChars := by decide
  rw [hup, hasSub_dummy_append]

/-- Python `replace('.NS','')` is the identity on a string without the
pattern. -/
theorem replNS_id (xs : List Char) (h : hasSub nsChars xs = false) :
    replNS xs = xs := by
  induction xs with
  | nil => rfl
  | cons c t ih =>
    have h' : nsChars.isPrefixOf (c :: t) = false ∧ hasSub nsChars t = false := by
      have := h
      simp only [hasSub, Bool.or_eq_false_iff] at this
      exact this
    match t, h', ih with
    | [], _, _ => rfl
    | [d], _, _ => rfl
    | d :: e :: t', h', ih =>
      have hcond : ¬(c = '.' ∧ d = 'N' ∧ e = 'S') := by
        intro hx
        rcases hx with ⟨hc, hd, he⟩
        subst hc; subst hd; subst he
        simp [nsChars, List.isPrefixOf] at h'
      show replNS (c :: d :: e :: t') = c :: d :: e :: t'
      rw [replNS, if_neg hcond]
      exact congrArg (c :: ·) (ih h'.2)

/-- Removing `".NS"` from `s ++ ".NS"` recovers `s` when `s` itself has
no occurrence of the pattern. -/
theorem replNS_strip (xs : List Char) (h : hasSub nsChars xs = false) :
    replNS (xs ++ nsChars) = xs := by
  induction xs with
  | nil => decide
  | cons c t ih =>
    have h' : nsChars.isPrefixOf (c :: t) = false ∧ hasSub nsChars t = false := by
      simp only [hasSub, Bool.or_eq_false_iff] at h
      exact h
    match t, h', ih with
    | [], h', _ =>
      show replNS [c, '.', 'N', 'S'] = [c]
      have hcond : ¬(c = '.' ∧ ('.' : Char) = 'N' ∧ ('N' : Char) = 'S') := by
        intro hx; exact absurd hx.2.1 (by decide)
      rw [replNS, if_neg hcond,
        show replNS ['.', 'N', 'S'] = [] from by decide]
    | [d], h', _ =>
      show replNS [c, d, '.', 'N', 'S'] = [c, d]
      have hc1 : ¬(c = '.' ∧ d = 'N' ∧ ('.' : Char) = 'S') := by
        intro hx; exact absurd hx.2.2 (by decide)
      have hc2 : ¬(d = '.' ∧ ('.' : Char) = 'N' ∧ ('N' : Char) = 'S') := by
        intro hx; exact absurd hx.2.1 (by decide)
      rw [replNS, if_neg hc1, replNS, if_neg hc2,
        show replNS ['.', 'N', 'S'] = [] from by decide]
    | d :: e :: t', h', ih =>
      show replNS (c :: d :: e :: (t' ++ nsChars)) = c :: d :: e :: t'
      have hcond : ¬(c = '.' ∧ d = 'N' ∧ e = 'S') := by
        intro hx
        rcases hx with ⟨hc, hd, he⟩
        subst hc; subst hd; subst he
        simp [nsChars, List.isPrefixOf] at h'
      rw [replNS, if_neg hcond]
      exact congrArg (c :: ·) (ih h'.2)

/-- The function `stripNS` on strings: stripping the appended suffix recovers the
symbol. -/
theorem stripNS_append (s : String) (h : hasSub nsChars s.data = false) :
    stripNS (s ++ ".NS") = s := by
  unfold stripNS
  rw [String.data_append, show (String.data ".NS") = nsChars from rfl,
    replNS_strip s.data h]

/-! ## Claim C10: success records strip the suffix, error records keep it -/

/-- C10.  For every provider symbol `s` (no `".NS"` occurrence inside it)
analyzed under its suffixed internal form `s ++ ".NS"`: a success record
reports the ticker as `s` (suffix stripped), an error record reports it
as `s ++ ".NS"` (suffixed form kept), and the two names differ — the
same instrument is identified differently in the result tables and in
the error/debug table. -/
theorem ticker_name_divergence (s : String) (hns : hasSub nsChars s.data = false)
    (fi : Except String Info) (fh : Except String (List Bar)) :
    ((analyze_single_stock (s ++ ".NS") fi fh).err = none →
      (analyze_single_stock (s ++ ".NS") fi fh).ticker = s) ∧
    ((analyze_single_stock (s ++ ".NS") fi fh).err.isSome →
      (analyze_single_stock (s ++ ".NS") fi fh).ticker = s ++ ".NS") ∧
    s ≠ s ++ ".NS" := by
  refine ⟨?_, ?_, ?_⟩
  · intro h
    cases fi with
    | error e => simp [analyze_single_stock] at h
    | ok info =>
      by_cases hc : (info.empty || info.currentPrice.isNone) = true
      · simp [analyze_single_stock, hc] at h
      · simp only [analyze_single_stock, hc, Bool.false_eq_true, if_false]
        exact stripNS_append s hns
  · intro h
    cases fi with
    | error e => rfl
    | ok info =>
      by_cases hc : (info.empty || info.currentPrice.isNone) = true
      · simp [analyze_single_stock, hc]
      · simp [analyze_single_stock, hc] at h
  · intro h
    have hlen : s.data.length = s.data.length + 3 := by
      conv_lhs => rw [h]
      rw [String.data_append]
      simp [show (String.data ".NS") = nsChars from rfl, nsChars]
    omega

/-- Witness for C10: the symbol `"TCS"` analyzed as `"TCS.NS"` — a
success record names it `"TCS"`, an error record names it
`"TCS.NS"`. -/
theorem ticker_name_divergence_witness :
    (analyze_single_stock ("TCS" ++ ".NS")
        (.ok { empty := false, currentPrice := some (some 100),
               returnOnEquity := none, debtToEquity := none,
               pegRatio := none, trailingPE := none })
        (.error "x")).ticker = "TCS" ∧
    (analyze_single_stock ("TCS" ++ ".NS") (.error "down") (.ok [])).ticker =
      "TCS" ++ ".NS" ∧
    "TCS" ≠ "TCS" ++ ".NS" := by
  refine ⟨?_, ?_, ?_⟩
  · exact (ticker_name_divergence "TCS" (by decide)
      (.ok { empty := false, currentPrice := some (some 100),
             returnOnEquity := none, debtToEquity := none,
             pegRatio := none, trailingPE := none })
      (.error "x")).1 rfl
  · exact (ticker_name_divergence "TCS" (by decide) (.error "down")
      (.ok [])).2.1 rfl
  · exact (ticker_name_divergence "TCS" (by decide) (.error "down")
      (.ok [])).2.2

/-! ## Claim C8: fetcher output is deduplicated, suffixed, DUMMY-free -/

theorem addTicker_mem (acc : List String) (t u : String) :
    u ∈ addTicker acc t ↔ u ∈ acc ∨ u = t := by
  unfold addTicker
  split
  · next hmem =>
    constructor
    · exact Or.inl
    · rintro (h | rfl)
      · exact h
      · exact hmem
  · simp

theorem addTicker_nodup (acc : List String) (t : String) (h : acc.Nodup) :
    (addTicker acc t).Nodup := by
  unfold addTicker
  split
  · exact h
  · next hmem =>
    rw [List.nodup_append]
    exact ⟨h, List.nodup_singleton t, by
      intro a ha hat
      rw [List.mem_singleton] at hat
      subst hat
      exact hmem ha⟩

theorem addSector_nodup (syms : List String) :
    ∀ acc : List String, acc.Nodup → (addSector acc syms).Nodup := by
  induction syms with
  | nil => intro acc h; exact h
  | cons sym rest ih =>
    intro acc h
    show (List.foldl _ (if hasDummy sym then acc else addTicker acc (sym ++ ".NS")) rest).Nodup
    apply ih
    split
    · exact h
    · exact addTicker_nodup acc (sym ++ ".NS") h

theorem addSector_mem (syms : List String) :
    ∀ (acc : List String) (u : String), u ∈ addSector acc syms →
      u ∈ acc ∨ ∃ sym, sym ∈ syms ∧ hasDummy sym = false ∧ u = sym ++ ".NS" := by
  induction syms with
  | nil => intro acc u h; exact Or.inl h
  | cons sym rest ih =>
    intro acc u h
    have h' := ih (if hasDummy sym then acc else addTicker acc (sym ++ ".NS")) u h
    rcases h' with h' | ⟨w, hw, hdw, hu⟩
    · by_cases hd : hasDummy sym = true
      · rw [if_pos hd] at h'
        exact Or.inl h'
      · rw [if_neg hd] at h'
        rcases (addTicker_mem acc (sym ++ ".NS") u).1 h' with h'' | rfl
        · exact Or.inl h''
        · exact Or.inr ⟨sym, List.mem_cons_self sym rest,
            Bool.eq_false_iff.mpr hd, rfl⟩
    · exact Or.inr ⟨w, List.mem_cons_of_mem sym hw, hdw, hu⟩

theorem fetch_nodup (ds : List (Option (List String))) :
    ∀ acc : List String, acc.Nodup →
      (ds.foldl (fun acc osyms =>
        match osyms with
        | none => acc
        | some syms => addSector acc syms) acc).Nodup := by
  induction ds with
  | nil => intro acc h; exact h
  | cons o rest ih =>
    intro acc h
    apply ih
    cases o with
    | none => exact h
    | some syms => exact addSector_nodup syms acc h

theorem fetch_mem (ds : List (Option (List String))) :
    ∀ (acc : List String) (u : String),
      u ∈ ds.foldl (fun acc osyms =>
        match osyms with
        | none => acc
        | some syms => addSector acc syms) acc →
      u ∈ acc ∨ ∃ syms sym, some syms ∈ ds ∧ sym ∈ syms ∧ hasDummy sym = false ∧
        u = sym ++ ".NS" := by
  induction ds with
  | nil => intro acc u h; exact Or.inl h
  | cons o rest ih =>
    intro acc u h
    have h' := ih _ u h
    rcases h' with h' | ⟨syms, sym, hin, hs, hd, hu⟩
    · cases o with
      | none => exact Or.inl h'
      | some syms =>
        rcases addSector_mem syms acc u h' with h'' | ⟨sym, hs, hd, hu⟩
        · exact Or.inl h''
        · exact Or.inr ⟨syms, sym, List.mem_cons_self _ _, hs, hd, hu⟩
    · exact Or.inr ⟨syms, sym, List.mem_cons_of_mem o hin, hs, hd, hu⟩

/-- C8.  The Sector List Fetcher's output (a) contains each ticker at
most once however many sectors list the same symbol, (b) consists only
of provider symbols that passed the DUMMY filter with the fixed `.NS`
suffix appended, and (c) never contains an entry whose uppercased form
has the substring `"DUMMY"`. -/
theorem fetcher_dedup_suffix_dummy (ds : List (Option (List String))) :
    (get_all_nifty_stocks ds).Nodup ∧
    (∀ t ∈ get_all_nifty_stocks ds,
      ∃ syms sym, some syms ∈ ds ∧ sym ∈ syms ∧ hasDummy sym = false ∧
        t = sym ++ ".NS") ∧
    (∀ t ∈ get_all_nifty_stocks ds, hasDummy t = false) := by
  refine ⟨fetch_nodup ds [] (List.nodup_nil), ?_, ?_⟩
  · intro t ht
    rcases fetch_mem ds [] t ht with h | h
    · exact absurd h (List.not_mem_nil t)
    · exact h
  · intro t ht
    rcases fetch_mem ds [] t ht with h | ⟨syms, sym, _, _, hd, rfl⟩
    · exact absurd h (List.not_mem_nil t)
    · rw [hasDummy_append_ns]
      exact hd

/-- Witness for C8 on two overlapping sectors with a DUMMY placeholder:
the shared symbol appears once, entries are suffixed, nothing DUMMY
survives. -/
theorem fetcher_dedup_suffix_dummy_witness :
    (get_all_nifty_stocks [some ["TCS", "SBIDUMMY1"], some ["TCS", "INFY"]]).Nodup ∧
    hasDummy "TCS.NS" = false ∧
    get_all_nifty_stocks [some ["TCS", "SBIDUMMY1"], some ["TCS", "INFY"]] =
      ["TCS.NS", "INFY.NS"] := by
  refine ⟨(fetcher_dedup_suffix_dummy [some ["TCS", "SBIDUMMY1"], some ["TCS", "INFY"]]).1,
    ?_, by decide⟩
  have h := (fetcher_dedup_suffix_dummy [some ["TCS", "SBIDUMMY1"], some ["TCS", "INFY"]]).2.2
  exact h "TCS.NS" (by decide)

/-! ## Claim C2: the technical level computation on valid windows -/

/-- A history window of plain (never-NaN) bars, as (high, low, close)
triples, embedded into the dataframe model. -/
def embedBars (l : List (ℚ × ℚ × ℚ)) : List Bar :=
  l.map (fun x => { high := some x.1, low := some x.2.1, close := some x.2.2 })

/-- Spec-side true-range series of the bars after the first, from a given
previous close: `max(high − low, |high − prev close|, |low − prev close|)`
per bar. -/
def trSpec (prevClose : ℚ) : List (ℚ × ℚ × ℚ) → List ℚ
  | [] => []
  | x :: rest =>
    max (x.1 - x.2.1) (max |x.1 - prevClose| |x.2.1 - prevClose|) :: trSpec x.2.2 rest

/-- Spec-side ATR of a window `first :: rest`: the mean of the 14 most
recent true-range values of the bars after the first. -/
def specATR14 (first : ℚ × ℚ × ℚ) (rest : List (ℚ × ℚ × ℚ)) : ℚ :=
  (lastN 14 (trSpec first.2.2 rest)).sum / 14

theorem trSpec_length (prevClose : ℚ) (l : List (ℚ × ℚ × ℚ)) :
    (trSpec prevClose l).length = l.length := by
  induction l generalizing prevClose with
  | nil => rfl
  | cons x rest ih => simp [trSpec, ih]

theorem trFrom_embed (pc : ℚ) (l : List (ℚ × ℚ × ℚ)) :
    trFrom (some pc) (embedBars l) = (trSpec pc l).map some := by
  induction l generalizing pc with
  | nil => rfl
  | cons x rest ih =>
    simp only [embedBars, List.map_cons, trFrom, trSpec, List.map]
    have hh : trRow (some pc)
        ({ high := some x.1, low := some x.2.1, close := some x.2.2 } : Bar) =
        some (max (x.1 - x.2.1) (max |x.1 - pc| |x.2.1 - pc|)) := by
      simp [trRow, subPF, absPF, maxPF]
    rw [hh]
    exact congrArg (List.cons _) (ih x.2.2)

theorem trSeries_embed (x : ℚ × ℚ × ℚ) (rest : List (ℚ × ℚ × ℚ)) :
    trSeries (embedBars (x :: rest)) = none :: (trSpec x.2.2 rest).map some := by
  simp only [embedBars, List.map_cons, trSeries, trFrom]
  have hh : trRow none
      ({ high := some x.1, low := some x.2.1, close := some x.2.2 } : Bar) = none := by
    simp [trRow, subPF, absPF, maxPF]
  rw [hh]
  exact congrArg (List.cons none) (trFrom_embed x.2.2 rest)

theorem filterMap_id_map_some (l : List ℚ) : (l.map some).filterMap id = l := by
  induction l with
  | nil => rfl
  | cons a t ih => simp [List.filterMap_cons, ih]

/-- The dataframe ATR of an embedded valid window of at least 15 bars is
exactly the spec-side ATR. -/
theorem atr_embed (x : ℚ × ℚ × ℚ) (rest : List (ℚ × ℚ × ℚ))
    (h : 14 ≤ rest.length) :
    atr (embedBars (x :: rest)) = some (specATR14 x rest) := by
  unfold atr
  rw [trSeries_embed]
  have hlen : ((none : PF) :: (trSpec x.2.2 rest).map some).length =
      rest.length + 1 := by
    simp [trSpec_length]
  unfold lastN
  rw [hlen]
  have hidx : rest.length + 1 - 14 = (rest.length - 14) + 1 := by omega
  rw [hidx, List.drop_succ_cons, ← List.map_drop]
  unfold pmean
  rw [filterMap_id_map_some]
  have hdlen : ((trSpec x.2.2 rest).drop (rest.length - 14)).length = 14 := by
    rw [List.length_drop, trSpec_length]
    omega
  simp only [hdlen]
  norm_num [specATR14, lastN, trSpec_length]

/-- C2.  On any window of at least 15 valid bars and any reference price,
the levels are stop-loss = round(price − 2·ATR, 2) and target =
round(price + 4·ATR, 2), with ATR the mean of the 14 most recent
true-range values (true range per bar after the first:
max(high − low, |high − prev close|, |low − prev close|)); on a window
of fewer than 15 bars no levels are produced — a degraded result, not an
error. -/
theorem technical_levels_formula (w : List (ℚ × ℚ × ℚ)) (p : ℚ) :
    (∀ x rest, w = x :: rest → 14 < w.length →
      compute_levels (embedBars w) (some p) =
        some (some (round2 (p - 2 * specATR14 x rest)),
              some (round2 (p + 4 * specATR14 x rest)))) ∧
    (w.length ≤ 14 → compute_levels (embedBars w) (some p) = none) := by
  constructor
  · rintro x rest rfl hlen
    have hrest : 14 ≤ rest.length := by
      simp only [List.length_cons] at hlen
      omega
    have hbars : 14 < (embedBars (x :: rest)).length := by
      simp [embedBars]
      simpa using hlen
    unfold compute_levels
    rw [if_pos hbars, atr_embed x rest hrest]
    simp [mulPF, subPF, addPF, round2PF]
  · intro hlen
    have hbars : ¬(14 < (embedBars w).length) := by
      simp [embedBars]
      omega
    unfold compute_levels
    rw [if_neg hbars]

/-- One plain demonstration bar: high 102, low 100, close 101. -/
def demoBar : ℚ × ℚ × ℚ := (102, 100, 101)

/-- 14 further identical bars. -/
def demoRest : List (ℚ × ℚ × ℚ) :=
  [demoBar, demoBar, demoBar, demoBar, demoBar, demoBar, demoBar,
   demoBar, demoBar, demoBar, demoBar, demoBar, demoBar, demoBar]

/-- A 15-bar valid window. -/
def demoWin15 : List (ℚ × ℚ × ℚ) := demoBar :: demoRest

/-- A 10-bar valid window. -/
def demoWin10 : List (ℚ × ℚ × ℚ) := List.replicate 10 demoBar

/-- Witness for C2: on the 15-bar window every true range is 2, ATR is 2,
stop-loss 100 − 4 = 96 and target 100 + 8 = 108; on the 10-bar window no
levels are produced. -/
theorem technical_levels_formula_witness :
    compute_levels (embedBars demoWin15) (some 100) = some (some 96, some 108) ∧
    compute_levels (embedBars demoWin10) (some 100) = none := by
  have ha : specATR14 demoBar demoRest = 2 := by
    norm_num [specATR14, demoRest, demoBar, lastN, trSpec]
  constructor
  · have h := (technical_levels_formula demoWin15 100).1 demoBar demoRest rfl
      (by decide)
    rw [h, ha]
    norm_num [round2, pyRoundInt, Rat.floor_def']
  · exact (technical_levels_formula demoWin10 100).2 (by decide)

/-! ## Claim C3: there is no fail-safe for zero price or NaN bars -/

/-- The spec ATR of the demonstration window is 2. -/
theorem demoATR_eq : specATR14 demoBar demoRest = 2 := by
  norm_num [specATR14, demoRest, demoBar, lastN, trSpec]

/-- C3 (amended).  The ATR block performs no fail-safe check: with at
least 15 bars it returns levels for any reference price including 0, and
when the ATR itself is NaN (every sampled true range NaN) it returns
NaN stop-loss/target values rather than returning nothing. -/
theorem no_failsafe_zero_price_nan (bars : List Bar) (h : 14 < bars.length) :
    (compute_levels bars (some 0)).isSome = true ∧
    (atr bars = none → compute_levels bars (some 0) = some (none, none)) := by
  constructor
  · unfold compute_levels
    rw [if_pos h]
    rfl
  · intro ha
    unfold compute_levels
    rw [if_pos h, ha]
    simp [mulPF, subPF, addPF, round2PF]

/-- A 15-bar window whose `High` column is entirely NaN: every true
range, and hence the ATR, is NaN. -/
def nanBars : List Bar :=
  List.replicate 15 { high := none, low := some 0, close := some 0 }

/-- Witness for the amended C3: on the NaN window with reference price 0
the calculator still produces a (NaN, NaN) level pair. -/
theorem no_failsafe_zero_price_nan_witness :
    (compute_levels nanBars (some 0)).isSome = true ∧
    compute_levels nanBars (some 0) = some (none, none) :=
  ⟨(no_failsafe_zero_price_nan nanBars (by decide)).1,
   (no_failsafe_zero_price_nan nanBars (by decide)).2 (by decide)⟩

/-- A healthy snapshot (score 3 ≥ 2, so the technical block runs):
price 100, ROE 100 %, debt/equity 1, PEG and P/E absent. -/
def nanDemoInfo : Info :=
  { empty := false, currentPrice := some (some 100),
    returnOnEquity := some (some 1), debtToEquity := some (some 1),
    pegRatio := none, trailingPE := none }

theorem nanDemoInfo_score : scoreOf nanDemoInfo = 3 := by
  have h1 : rule1 nanDemoInfo = true := by
    norm_num [rule1, roePct, pyTruthy, nanDemoInfo, Info.roe, mulPF, gtPF]
  have h2 : rule2 nanDemoInfo = true := by
    norm_num [rule2, debtRatio, nanDemoInfo, Info.debtEq, gtPF, ltPF, divPF]
  have h3 : rule3 nanDemoInfo = true := by
    norm_num [rule3, nanDemoInfo, Info.peg]
  have h4 : rule4 nanDemoInfo = false := by
    norm_num [rule4, nanDemoInfo, Info.pe, betweenPF]
  simp [scoreOf, h1, h2, h3, h4]

theorem nanBars_atr : atr nanBars = none := by decide

/-- Counterexample to C3 as stated: (a) with reference price 0 and a
valid 15-bar window the calculator returns levels (stop-loss −4, target
8) instead of nothing, and (b) a NaN history window propagates NaN into
the stop-loss field of a produced success record. -/
theorem failsafe_claim_counterexample :
    compute_levels (embedBars demoWin15) (some 0) = some (some (-4), some 8) ∧
    ((analyze_single_stock "NANDEMO.NS" (.ok nanDemoInfo) (.ok nanBars)).res.map
      (fun f => f.slLevel)) = some (some none) := by
  constructor
  · have h15 : demoWin15 = demoBar :: demoRest := rfl
    unfold compute_levels
    rw [if_pos (by decide : 14 < (embedBars demoWin15).length), h15,
      atr_embed demoBar demoRest (by decide), demoATR_eq]
    simp only [mulPF, subPF, addPF, round2PF, Option.map_some]
    norm_num [round2, pyRoundInt, Rat.floor_def']
  · have hcl : compute_levels nanBars (some 100) = some (none, none) := by
      unfold compute_levels
      rw [if_pos (by decide : 14 < nanBars.length), nanBars_atr]
      simp [mulPF, subPF, addPF, round2PF]
    have hguard : (nanDemoInfo.empty || nanDemoInfo.currentPrice.isNone) = false := rfl
    simp only [analyze_single_stock, hguard, Bool.false_eq_true, if_false,
      nanDemoInfo_score, show Info.price nanDemoInfo = some 100 from rfl, hcl]
    norm_num

/-! ## Claim C7: partition, ranking and the two output tiers -/

theorem scanPartition_go (recs : List AnalysisRecord) :
    ∀ e r : List AnalysisRecord,
      recs.foldl scanStep (e, r) =
        (e ++ recs.filter (fun x => x.err.isSome),
         r ++ recs.filter (fun x => x.err.isNone && decide (2 ≤ recScore x))) := by
  induction recs with
  | nil => intro e r; simp
  | cons x t ih =>
    intro e r
    rw [List.foldl_cons]
    by_cases hx : x.err.isSome = true
    · have hstep : scanStep (e, r) x = (e ++ [x], r) := by
        unfold scanStep
        rw [if_pos hx]
      have hnone : x.err.isNone = false := by
        simp [Option.isNone_iff_eq_none] at hx ⊢
        exact hx
      rw [hstep, ih]
      simp [List.filter_cons, hx, hnone]
    · have hnone : x.err.isNone = true := by
        rcases hxe : x.err with _ | v
        · rfl
        · exact absurd (by simp [hxe]) hx
      by_cases hsc : 2 ≤ recScore x
      · have hstep : scanStep (e, r) x = (e, r ++ [x]) := by
          unfold scanStep
          rw [if_neg hx, if_pos hsc]
        rw [hstep, ih]
        simp [List.filter_cons, hx, hnone, hsc]
      · have hstep : scanStep (e, r) x = (e, r) := by
          unfold scanStep
          rw [if_neg hx, if_neg hsc]
        rw [hstep, ih]
        simp [List.filter_cons, hx, hnone, hsc]

theorem scanPartition_eq (recs : List AnalysisRecord) :
    scanPartition recs =
      (recs.filter (fun x => x.err.isSome),
       recs.filter (fun x => x.err.isNone && decide (2 ≤ recScore x))) := by
  unfold scanPartition
  rw [scanPartition_go recs [] []]
  simp

theorem roeDescLE_total (x y : PF) : (roeDescLE x y || roeDescLE y x) = true := by
  rcases x with _ | a <;> rcases y with _ | b <;> simp [roeDescLE]
  exact le_total b a

theorem roeDescLE_trans (x y z : PF) (h1 : roeDescLE x y = true)
    (h2 : roeDescLE y z = true) : roeDescLE x z = true := by
  rcases x with _ | a <;> rcases y with _ | b <;> rcases z with _ | c <;>
    simp [roeDescLE] at *
  exact le_trans h2 h1

theorem rankLE_iff (a b : AnalysisRecord) :
    rankLE a b = true ↔
      recScore b < recScore a ∨
        (recScore a = recScore b ∧ roeDescLE (recRoe a) (recRoe b) = true) := by
  unfold rankLE
  split_ifs with h1 h2
  · simp [h1]
  · simp
    constructor
    · omega
    · intro h; omega
  · have heq : recScore a = recScore b := by omega
    simp [heq]

theorem rankLE_total (a b : AnalysisRecord) : (rankLE a b || rankLE b a) = true := by
  rcases Nat.lt_trichotomy (recScore a) (recScore b) with h | h | h
  · have : rankLE b a = true := (rankLE_iff b a).2 (Or.inl h)
    simp [this]
  · have := roeDescLE_total (recRoe a) (recRoe b)
    rcases Bool.or_eq_true_iff.1 this with h' | h'
    · simp [(rankLE_iff a b).2 (Or.inr ⟨h, h'⟩)]
    · simp [(rankLE_iff b a).2 (Or.inr ⟨h.symm, h'⟩)]
  · simp [(rankLE_iff a b).2 (Or.inl h)]

theorem rankLE_trans (a b c : AnalysisRecord) (h1 : rankLE a b = true)
    (h2 : rankLE b c = true) : rankLE a c = true := by
  rcases (rankLE_iff a b).1 h1 with hab | ⟨hab, hab'⟩ <;>
    rcases (rankLE_iff b c).1 h2 with hbc | ⟨hbc, hbc'⟩
  · exact (rankLE_iff a c).2 (Or.inl (lt_trans hbc hab))
  · exact (rankLE_iff a c).2 (Or.inl (by omega))
  · exact (rankLE_iff a c).2 (Or.inl (by omega))
  · exact (rankLE_iff a c).2
      (Or.inr ⟨by omega, roeDescLE_trans _ _ _ hab' hbc'⟩)

/-- C7.  The scan handler (a) partitions completed records into the error
list (records with an error field) and the results list (non-error
records scoring ≥ 2, in completion order); (b) drops non-error records
scoring below 2 from every output; (c) sorts the results by score
descending then `ROE %` descending; and (d) exposes top picks = exactly
the results with score ≥ 3 and watchlist = exactly the results with
score = 2. -/
theorem scan_partition_sort_tiers (recs : List AnalysisRecord) :
    (scanPartition recs).1 = recs.filter (fun x => x.err.isSome) ∧
    (scanPartition recs).2 =
      recs.filter (fun x => x.err.isNone && decide (2 ≤ recScore x)) ∧
    (∀ r : AnalysisRecord, r.err = none → recScore r < 2 →
      r ∉ (scanPartition recs).1 ∧ r ∉ (scanPartition recs).2 ∧
      r ∉ topPicks recs ∧ r ∉ watchlist recs) ∧
    (sortedResults recs).Perm (scanPartition recs).2 ∧
    List.Pairwise (fun a b => rankLE a b = true) (sortedResults recs) ∧
    topPicks recs = (sortedResults recs).filter (fun r => decide (3 ≤ recScore r)) ∧
    (topPicks recs).Perm
      ((scanPartition recs).2.filter (fun r => decide (3 ≤ recScore r))) ∧
    watchlist recs = (sortedResults recs).filter (fun r => decide (recScore r = 2)) ∧
    (watchlist recs).Perm
      ((scanPartition recs).2.filter (fun r => decide (recScore r = 2))) := by
  have hpart := scanPartition_eq recs
  have hperm : (sortedResults recs).Perm (scanPartition recs).2 :=
    List.mergeSort_perm (scanPartition recs).2 rankLE
  refine ⟨by rw [hpart], by rw [hpart], ?_, hperm, ?_, rfl, ?_, rfl, ?_⟩
  · intro r hre hrs
    have hnotres : r ∉ (scanPartition recs).2 := by
      rw [hpart]
      intro hmem
      have := (List.mem_filter.1 hmem).2
      simp at this
      omega
    refine ⟨?_, hnotres, ?_, ?_⟩
    · rw [hpart]
      intro hmem
      have := (List.mem_filter.1 hmem).2
      simp [hre] at this
    · intro hmem
      have := (List.mem_filter.1 hmem).2
      simp at this
      omega
    · intro hmem
      have := (List.mem_filter.1 hmem).2
      simp at this
      omega
  · exact List.sorted_mergeSort
      (fun a b c => rankLE_trans a b c) (fun a b => rankLE_total a b)
      (scanPartition recs).2
  · exact hperm.filter _
  · exact hperm.filter _

/-- A success record with the given ticker, raw score and displayed
ROE %, used in concrete orchestration scenarios. -/
def mkRes (t : String) (sc : ℕ) (roe : ℚ) : AnalysisRecord :=
  { ticker := t, err := none,
    res := some
      { price := some 100, scoreText := toString sc ++ "/4",
        verdict := verdictOf sc, slLevel := none, tgtLevel := none,
        pegDisplay := none, roeDisplay := some roe, peDisplay := none,
        rawScore := sc } }

/-- A completed-scan demo: an Avoid-scoring record, a watchlist record,
an error record, and a top pick. -/
def demoRecs : List AnalysisRecord :=
  [mkRes "AAA" 1 20, mkRes "BBB" 2 10,
   { ticker := "CCC.NS", err := some "boom", res := none },
   mkRes "DDD" 4 30]

/-- Witness for C7: the score-1 record of the demo scan is dropped from
the error list, the results list and both display tiers. -/
theorem scan_partition_sort_tiers_witness :
    mkRes "AAA" 1 20 ∉ (scanPartition demoRecs).1 ∧
    mkRes "AAA" 1 20 ∉ (scanPartition demoRecs).2 ∧
    mkRes "AAA" 1 20 ∉ topPicks demoRecs ∧
    mkRes "AAA" 1 20 ∉ watchlist demoRecs :=
  (scan_partition_sort_tiers demoRecs).2.2.1 (mkRes "AAA" 1 20) rfl
    (by decide)

/-! ## Claim C9: the two empty states share one warning message -/

/-- C9 (amended).  Whenever the filtered results list is empty — whether
the ticker fetch produced nothing or every analyzed ticker scored below
2 or errored — the scan displays the single fixed warning
`noMatchMsg`; the only output that distinguishes the two empty states is
the earlier ticker-count line `foundMsg`, which reports 0 exactly when
no tickers were fetched. -/
theorem empty_states_same_warning (tickers : List String)
    (recs : List AnalysisRecord) (w : ℕ) (h : (scanPartition recs).2 = []) :
    scanMessages tickers recs w = [foundMsg tickers.length w, noMatchMsg] ∧
    emptyStateMsg recs = some noMatchMsg := by
  constructor
  · simp [scanMessages, h]
  · simp [emptyStateMsg, h]

/-- Witness for the amended C9: a scan of one fetched ticker whose only
record scores 1 shows the count line for one ticker and then the same
warning as a scan that fetched nothing. -/
theorem empty_states_same_warning_witness :
    scanMessages ["XYZ.NS"] [mkRes "XYZ" 1 20] 2 =
      [foundMsg 1 2, noMatchMsg] ∧
    scanMessages [] [] 2 = [foundMsg 0 2, noMatchMsg] :=
  ⟨(empty_states_same_warning ["XYZ.NS"] [mkRes "XYZ" 1 20] 2 (by decide)).1,
   (empty_states_same_warning [] [] 2 rfl).1⟩

/-- Counterexample to C9 as stated: the empty-state warning of a scan
that fetched a ticker but found no qualifying result is the very same
message as that of a scan that fetched no tickers at all — the two empty
states are not reported distinctly. -/
theorem distinct_empty_messages_counterexample :
    emptyStateMsg [mkRes "XYZ" 1 20] = emptyStateMsg [] ∧
    emptyStateMsg [] = some noMatchMsg := by
  constructor
  · decide
  · rfl
